import Mathlib

/-!
Shallow embedding of the k-anonymity evaluation core (`n.py`) of the
privacy-k-anonymity repository, together with theorems checking the
natural-language specification against it.

A dataset is an ordered sequence of records; each record maps a column
name to a string cell value.  The full-suppression marker is the string
"*", the partial-generalization marker is the substring "**".  Rational
numbers stand in for Python floats: every quantity the code computes is
a ratio of integers, so the arithmetic is exact.
-/

namespace KAnon

/-- A tabular dataset: ordered column names plus an ordered list of records,
each record being a mapping from column name to cell value (as in a pandas
DataFrame whose cells are strings). -/
structure Dataset where
  cols : List String
  rows : List (String → String)

/-- Embedding of `identify_quasi_identifiers` of `n.py`: the columns (in original order)
whose values are not all equal to the full-suppression marker. -/
def identify_quasi_identifiers (df : Dataset) : List String :=
  df.cols.filter (fun col => ¬ (df.rows.all (fun r => r col = "*")))

/-- The composite equivalence-class key of one record: the record's
quasi-identifier values joined with the separator, as in
`'_'.join(row.values.astype(str))`. -/
def recordKey (qis : List String) (r : String → String) : String :=
  String.intercalate "_" (qis.map r)

/-- The list of composite keys, one per record, in record order
(the `ec_keys` series of `compute_equivalence_classes`). -/
def ec_keys (df : Dataset) (qis : List String) : List String :=
  df.rows.map (recordKey qis)

/-- Auxiliary accumulator pass for `distinctList`: the elements of the
second list not occurring in `seen`, each kept at its first occurrence. -/
def distinctAux {α : Type} [DecidableEq α] : List α → List α → List α
  | _, [] => []
  | seen, a :: l =>
    if a ∈ seen then distinctAux seen l else a :: distinctAux (a :: seen) l

/-- The distinct elements of a list in first-seen order (the iteration
order of a Python `Counter` / `defaultdict` built by one insertion pass). -/
def distinctList {α : Type} [DecidableEq α] (l : List α) : List α :=
  distinctAux [] l

/-- Embedding of `compute_equivalence_classes` of `n.py`: per-key record counts
(`ec_counts`) and per-key membership lists of record indices in
first-seen order (`ec_groups`). -/
def compute_equivalence_classes (df : Dataset) (qis : List String) :
    List (String × Nat) × List (String × List Nat) :=
  let keys := ec_keys df qis
  ((distinctList keys).map (fun k => (k, keys.count k)),
   (distinctList keys).map
     (fun k => (k, (List.range keys.length).filter (fun i => keys.getD i "" = k))))

/-- The multiset of equivalence-class sizes, in first-seen class order
(`ec_counts.values()`). -/
def ecSizes (df : Dataset) (qis : List String) : List Nat :=
  ((compute_equivalence_classes df qis).1).map (fun p => p.2)

/-- Result record of `calculate_reidentification_risks`. -/
structure RiskMetrics where
  max_risk : ℚ
  avg_risk : ℚ
  risks : List ℚ
deriving DecidableEq

/-- Embedding of `calculate_reidentification_risks` of `n.py`: per-class risk `1/size`,
the maximum risk and the unweighted mean risk, with Python's
`max(risks) if risks else 0` and `sum/len if risks else 0` guards. -/
def calculate_reidentification_risks (sizes : List Nat) : RiskMetrics :=
  let risks : List ℚ := sizes.map (fun s : Nat => 1 / (s : ℚ))
  { max_risk := match risks with
      | [] => 0
      | r :: rest => rest.foldl max r
    avg_risk := if risks.isEmpty then 0 else risks.sum / (risks.length : ℚ)
    risks := risks }

/-- Result record of `calculate_equivalence_class_metrics`. -/
structure ECMetrics where
  num_equivalence_classes : Nat
  min_ec_size : Nat
  max_ec_size : Nat
  avg_ec_size : ℚ
  unique_records : Nat
  unique_records_percentage : ℚ
  ec_size_distribution : List (Nat × Nat)
deriving DecidableEq

/-- Embedding of `calculate_equivalence_class_metrics` of `n.py`, with the
`if ec_sizes else 0` and `if total_records > 0 else 0` guards made
explicit. -/
def calculate_equivalence_class_metrics (sizes : List Nat) (total_records : Nat) :
    ECMetrics :=
  let unique : Nat := (sizes.filter (fun s => s = 1)).length
  { num_equivalence_classes := sizes.length
    min_ec_size := match sizes with
      | [] => 0
      | s :: rest => rest.foldl min s
    max_ec_size := match sizes with
      | [] => 0
      | s :: rest => rest.foldl max s
    avg_ec_size := if sizes.isEmpty then 0 else (sizes.sum : ℚ) / (sizes.length : ℚ)
    unique_records := unique
    unique_records_percentage :=
      if 0 < total_records then (unique : ℚ) / (total_records : ℚ) * 100 else 0
    ec_size_distribution := (distinctList sizes).map (fun s => (s, sizes.count s)) }

/-- Whether a string contains two consecutive asterisks, i.e. the
partial-generalization marker `'**'` as a substring (`'**' in str(val)`). -/
def containsDoubleStar : List Char → Bool
  | '*' :: '*' :: _ => true
  | _ :: rest => containsDoubleStar rest
  | [] => false

/-- Per-column information-loss record of `calculate_information_loss`. -/
structure ColLoss where
  distinct_values : Nat
  asterisk_percentage : ℚ
  generalized_percentage : ℚ
  total_loss_percentage : ℚ
deriving DecidableEq

/-- One value of the heterogeneous `info_loss` dict: either a per-column
record or the aggregate average (a bare number). -/
inductive InfoLossEntry where
  | perCol (c : ColLoss)
  | avgEntry (q : ℚ)
deriving DecidableEq

/-- Python-dict assignment `m[k] = v` on an association list: overwrite in
place when the key exists, append otherwise. -/
def dictSet (m : List (String × InfoLossEntry)) (k : String) (v : InfoLossEntry) :
    List (String × InfoLossEntry) :=
  if m.any (fun p => p.1 = k) then
    m.map (fun p => if p.1 = k then (k, v) else p)
  else m ++ [(k, v)]

/-- The `total_loss_percentage` field of an entry (only ever read on
per-column entries in the code). -/
def totalLossOf : InfoLossEntry → ℚ
  | .perCol c => c.total_loss_percentage
  | .avgEntry _ => 0

/-- The per-column body of `calculate_information_loss` for one column:
distinct value count, and suppression / generalization percentages. -/
def colLoss (df : Dataset) (col : String) : ColLoss :=
  let vals := df.rows.map (fun r => r col)
  let asterisk_count := vals.countP (fun v => v = "*")
  let generalized_count :=
    vals.countP (fun v => ¬ (v = "*") ∧ containsDoubleStar v.toList)
  let total_records := df.rows.length
  { distinct_values := vals.dedup.length
    asterisk_percentage :=
      if 0 < total_records then (asterisk_count : ℚ) / (total_records : ℚ) * 100 else 0
    generalized_percentage :=
      if 0 < total_records then (generalized_count : ℚ) / (total_records : ℚ) * 100 else 0
    total_loss_percentage :=
      if 0 < total_records then
        ((asterisk_count : ℚ) + (generalized_count : ℚ)) / (total_records : ℚ) * 100
      else 0 }

/-- The `info_loss` dict after the per-column loop of
`calculate_information_loss`, before the `'average'` key is written. -/
def infoLossBase (df : Dataset) (qis : List String) : List (String × InfoLossEntry) :=
  qis.foldl (fun m col => dictSet m col (InfoLossEntry.perCol (colLoss df col))) []

/-- The aggregate `avg_loss`: unweighted mean of `total_loss_percentage`
over the dict values, with the `if info_loss else 0` guard. -/
def avgLoss (df : Dataset) (qis : List String) : ℚ :=
  let base := infoLossBase df qis
  if base.isEmpty then 0
  else (base.map (fun p => totalLossOf p.2)).sum / (base.length : ℚ)

/-- Embedding of `calculate_information_loss` of `n.py`: the per-column dict with the
aggregate average then stored under the key `'average'` in the same dict. -/
def calculate_information_loss (df : Dataset) (qis : List String) :
    List (String × InfoLossEntry) :=
  dictSet (infoLossBase df qis) "average" (InfoLossEntry.avgEntry (avgLoss df qis))

/-- Number of cells of the whole table (`df.size` = rows × columns). -/
def totalCellCount (df : Dataset) : Nat :=
  df.rows.length * df.cols.length

/-- Number of cells of the whole table equal to the full-suppression
marker (`(df == '*').sum().sum()`). -/
def suppressedCellCount (df : Dataset) : Nat :=
  (df.rows.map (fun r => (df.cols.filter (fun c => r c = "*")).length)).sum

/-- Embedding of `calculate_suppression_rate` of `n.py`: suppressed cells over all cells,
times 100, with the `if total_cells > 0 else 0` guard. -/
def calculate_suppression_rate (df : Dataset) : ℚ :=
  if 0 < totalCellCount df then
    (suppressedCellCount df : ℚ) / (totalCellCount df : ℚ) * 100
  else 0

/-- Embedding of `discernibility_metric` of `n.py`: sum over classes of size squared. -/
def discernibility_metric (groups : List (String × List Nat)) : Nat :=
  (groups.map (fun g => g.2.length ^ 2)).sum

/-- The result dictionary of `evaluate_k_anonymity`. -/
structure EvalResult where
  k_value : ℚ
  quasi_identifiers : List String
  num_records : Nat
  satisfies_k_anonymity : Bool
  risks : RiskMetrics
  equivalence_class_metrics : ECMetrics
  information_loss : List (String × InfoLossEntry)
  suppression_rate : ℚ
  discernibility : Nat

/-- Embedding of `evaluate_k_anonymity` of `n.py`: the full pipeline.  `k` is a rational
so that non-integer thresholds are representable; the code performs no
validation of `k` and the comparison `min_ec_size >= k` is evaluated as
given. -/
def evaluate_k_anonymity (df : Dataset) (k : ℚ) : EvalResult :=
  let qis := identify_quasi_identifiers df
  let ec := compute_equivalence_classes df qis
  let sizes := (ec.1).map (fun p => p.2)
  let ecm := calculate_equivalence_class_metrics sizes df.rows.length
  { k_value := k
    quasi_identifiers := qis
    num_records := df.rows.length
    satisfies_k_anonymity := decide (k ≤ (ecm.min_ec_size : ℚ))
    risks := calculate_reidentification_risks sizes
    equivalence_class_metrics := ecm
    information_loss := calculate_information_loss df qis
    suppression_rate := calculate_suppression_rate df
    discernibility := discernibility_metric ec.2 }

/-! ### Helper lemmas -/

theorem distinctAux_congr {α : Type} [DecidableEq α] (l : List α) (s₁ s₂ : List α)
    (h : ∀ x, x ∈ s₁ ↔ x ∈ s₂) : distinctAux s₁ l = distinctAux s₂ l := by
  induction l generalizing s₁ s₂ with
  | nil => rfl
  | cons a t ih =>
    simp only [distinctAux]
    by_cases ha : a ∈ s₁
    · rw [if_pos ha, if_pos ((h a).mp ha)]
      exact ih s₁ s₂ h
    · rw [if_neg ha, if_neg (fun hx => ha ((h a).mpr hx))]
      congr 1
      exact ih _ _ (fun x => by simp [h x])

theorem distinctAux_filter {α : Type} [DecidableEq α] (a : α) (l : List α) :
    ∀ seen : List α,
      distinctAux (a :: seen) l = distinctAux seen (l.filter (fun b => b ≠ a)) := by
  induction l with
  | nil => intro seen; rfl
  | cons b t ih =>
    intro seen
    by_cases hba : b = a
    · subst hba
      rw [List.filter_cons_of_neg (by simp)]
      simp only [distinctAux, List.mem_cons, true_or, if_true]
      exact ih seen
    · rw [List.filter_cons_of_pos (by simp [hba])]
      simp only [distinctAux]
      by_cases hbs : b ∈ seen
      · rw [if_pos (List.mem_cons_of_mem _ hbs), if_pos hbs]
        exact ih seen
      · have h1 : b ∉ a :: seen := by simp [hba, hbs]
        rw [if_neg h1, if_neg hbs]
        congr 1
        rw [distinctAux_congr t (b :: a :: seen) (a :: b :: seen)
          (fun x => by simp; tauto)]
        exact ih (b :: seen)

theorem distinctList_cons {α : Type} [DecidableEq α] (a : α) (l : List α) :
    distinctList (a :: l) = a :: distinctList (l.filter (fun b => b ≠ a)) := by
  unfold distinctList
  simp only [distinctAux, List.not_mem_nil, if_false]
  rw [distinctAux_filter]

theorem distinctList_induction {α : Type} [DecidableEq α] (P : List α → Prop)
    (h0 : P []) (h1 : ∀ a l, P (l.filter (fun b => b ≠ a)) → P (a :: l)) :
    ∀ l, P l := by
  have key : ∀ n (l : List α), l.length ≤ n → P l := by
    intro n
    induction n with
    | zero =>
      intro l hl
      have hnil : l = [] := List.eq_nil_of_length_eq_zero (Nat.le_zero.mp hl)
      rw [hnil]; exact h0
    | succ n ih =>
      intro l hl
      cases l with
      | nil => exact h0
      | cons a t =>
        refine h1 a t (ih _ ?_)
        have hle := List.length_filter_le (fun b => decide (b ≠ a)) t
        simp only [List.length_cons] at hl
        omega
  exact fun l => key l.length l le_rfl

theorem mem_distinctList {α : Type} [DecidableEq α] (l : List α) (x : α) :
    x ∈ distinctList l ↔ x ∈ l := by
  induction l using distinctList_induction with
  | h0 => simp [distinctList, distinctAux]
  | h1 a l ih =>
    rw [distinctList_cons, List.mem_cons, List.mem_cons, ih]
    constructor
    · rintro (rfl | hx)
      · exact Or.inl rfl
      · exact Or.inr (List.mem_filter.mp hx).1
    · rintro (rfl | hx)
      · exact Or.inl rfl
      · by_cases hxa : x = a
        · exact Or.inl hxa
        · exact Or.inr (List.mem_filter.mpr ⟨hx, by simpa using hxa⟩)

theorem nodup_distinctList {α : Type} [DecidableEq α] (l : List α) :
    (distinctList l).Nodup := by
  induction l using distinctList_induction with
  | h0 => simp [distinctList, distinctAux]
  | h1 a l ih =>
    rw [distinctList_cons]
    refine List.nodup_cons.mpr ⟨fun ha => ?_, ih⟩
    have := (List.mem_filter.mp ((mem_distinctList _ _).mp ha)).2
    simp at this

theorem count_add_length_filter {α : Type} [DecidableEq α] (a : α) (l : List α) :
    l.count a + (l.filter (fun b => b ≠ a)).length = l.length := by
  induction l with
  | nil => simp
  | cons b t ih =>
    by_cases hba : b = a
    · subst hba
      rw [List.count_cons_self, List.filter_cons_of_neg (by simp)]
      simp only [List.length_cons]
      omega
    · rw [List.count_cons_of_ne (fun h => hba h.symm),
        List.filter_cons_of_pos (by simp [hba])]
      simp only [List.length_cons]
      omega

theorem sum_count_distinctList {α : Type} [DecidableEq α] (l : List α) :
    ((distinctList l).map (fun k => l.count k)).sum = l.length := by
  induction l using distinctList_induction with
  | h0 => simp [distinctList, distinctAux]
  | h1 a l ih =>
    rw [distinctList_cons, List.map_cons, List.sum_cons]
    have hmap : (distinctList (l.filter (fun b => b ≠ a))).map
        (fun k => (a :: l).count k)
        = (distinctList (l.filter (fun b => b ≠ a))).map
          (fun k => (l.filter (fun b => b ≠ a)).count k) := by
      refine List.map_congr_left (fun k hk => ?_)
      have hkne : k ≠ a := by
        have := (List.mem_filter.mp ((mem_distinctList _ _).mp hk)).2
        simpa using this
      rw [List.count_cons_of_ne hkne, ← List.count_filter (p := fun b => decide (b ≠ a))]
      simp [hkne]
    rw [hmap, ih, List.count_cons_self]
    have h := count_add_length_filter a l
    simp only [List.length_cons]
    omega

theorem foldl_min_mem {α : Type} [LinearOrder α] :
    ∀ (l : List α) (a : α), l.foldl min a ∈ a :: l
  | [], a => by simp
  | b :: t, a => by
    have h := foldl_min_mem t (min a b)
    simp only [List.foldl_cons]
    rcases List.mem_cons.mp h with h1 | h1
    · rw [h1]
      rcases min_choice a b with hm | hm
      · rw [hm]; exact List.mem_cons_self _ _
      · rw [hm]; exact List.mem_cons_of_mem _ (List.mem_cons_self _ _)
    · exact List.mem_cons_of_mem _ (List.mem_cons_of_mem _ h1)

theorem foldl_min_le {α : Type} [LinearOrder α] :
    ∀ (l : List α) (a x : α), x ∈ a :: l → l.foldl min a ≤ x
  | [], a, x, h => by
    have hx : x = a := by simpa using h
    simp [hx]
  | b :: t, a, x, h => by
    simp only [List.foldl_cons]
    have hinit : t.foldl min (min a b) ≤ min a b :=
      foldl_min_le t (min a b) (min a b) (List.mem_cons_self _ _)
    have hmem : x = a ∨ x = b ∨ x ∈ t := by simpa using h
    rcases hmem with rfl | rfl | h2
    · exact le_trans hinit (min_le_left _ _)
    · exact le_trans hinit (min_le_right _ _)
    · exact foldl_min_le t (min a b) x (List.mem_cons_of_mem _ h2)

theorem foldl_max_mem {α : Type} [LinearOrder α] :
    ∀ (l : List α) (a : α), l.foldl max a ∈ a :: l
  | [], a => by simp
  | b :: t, a => by
    have h := foldl_max_mem t (max a b)
    simp only [List.foldl_cons]
    rcases List.mem_cons.mp h with h1 | h1
    · rw [h1]
      rcases max_choice a b with hm | hm
      · rw [hm]; exact List.mem_cons_self _ _
      · rw [hm]; exact List.mem_cons_of_mem _ (List.mem_cons_self _ _)
    · exact List.mem_cons_of_mem _ (List.mem_cons_of_mem _ h1)

theorem le_foldl_max {α : Type} [LinearOrder α] :
    ∀ (l : List α) (a x : α), x ∈ a :: l → x ≤ l.foldl max a
  | [], a, x, h => by
    have hx : x = a := by simpa using h
    simp [hx]
  | b :: t, a, x, h => by
    simp only [List.foldl_cons]
    have hinit : max a b ≤ t.foldl max (max a b) :=
      le_foldl_max t (max a b) (max a b) (List.mem_cons_self _ _)
    have hmem : x = a ∨ x = b ∨ x ∈ t := by simpa using h
    rcases hmem with rfl | rfl | h2
    · exact le_trans (le_max_left _ _) hinit
    · exact le_trans (le_max_right _ _) hinit
    · exact le_foldl_max t (max a b) x (List.mem_cons_of_mem _ h2)

theorem distinctList_ne_nil {α : Type} [DecidableEq α] (l : List α) (h : l ≠ []) :
    distinctList l ≠ [] := by
  cases l with
  | nil => exact absurd rfl h
  | cons a t => rw [distinctList_cons]; exact List.cons_ne_nil _ _

/-! ### Structure of the equivalence classes -/

/-- The composite key of record `i` (defaulting to `""` out of range). -/
def qiKey (df : Dataset) (qis : List String) (i : Nat) : String :=
  (ec_keys df qis).getD i ""

/-- The quasi-identifier value tuple of record `i`: the record's values in
the QI columns, in QI order (the spec's "Equivalence Class Key" object). -/
def qiTuple (df : Dataset) (qis : List String) (i : Nat) : List String :=
  qis.map (df.rows.getD i (fun _ => ""))

/-- Records `i` and `j` fall in a common equivalence class of the builder. -/
def sameClass (df : Dataset) (qis : List String) (i j : Nat) : Prop :=
  ∃ g ∈ (compute_equivalence_classes df qis).2, i ∈ g.2 ∧ j ∈ g.2

instance (df : Dataset) (qis : List String) (i j : Nat) :
    Decidable (sameClass df qis i j) := by
  unfold sameClass
  infer_instance

theorem ec_counts_def (df : Dataset) (qis : List String) :
    (compute_equivalence_classes df qis).1
      = (distinctList (ec_keys df qis)).map
          (fun k => (k, (ec_keys df qis).count k)) := rfl

theorem ec_groups_def (df : Dataset) (qis : List String) :
    (compute_equivalence_classes df qis).2
      = (distinctList (ec_keys df qis)).map
          (fun k => (k, (List.range (ec_keys df qis).length).filter
              (fun i => (ec_keys df qis).getD i "" = k))) := rfl

theorem ecSizes_eq (df : Dataset) (qis : List String) :
    ecSizes df qis
      = (distinctList (ec_keys df qis)).map (fun k => (ec_keys df qis).count k) := by
  unfold ecSizes
  rw [ec_counts_def, List.map_map]
  rfl

theorem ecSizes_sum (df : Dataset) (qis : List String) :
    (ecSizes df qis).sum = df.rows.length := by
  rw [ecSizes_eq, sum_count_distinctList]
  simp [ec_keys]

theorem one_le_of_mem_ecSizes (df : Dataset) (qis : List String) (s : Nat)
    (hs : s ∈ ecSizes df qis) : 1 ≤ s := by
  rw [ecSizes_eq] at hs
  obtain ⟨k, hk, rfl⟩ := List.mem_map.mp hs
  exact List.count_pos_iff.mpr ((mem_distinctList _ _).mp hk)

theorem ecSizes_ne_nil (df : Dataset) (qis : List String) (h : df.rows ≠ []) :
    ecSizes df qis ≠ [] := by
  rw [ecSizes_eq]
  simp only [ne_eq, List.map_eq_nil_iff]
  exact distinctList_ne_nil _ (by simpa [ec_keys, List.map_eq_nil_iff] using h)

theorem qiKey_mem (df : Dataset) (qis : List String) (i : Nat)
    (hi : i < df.rows.length) : qiKey df qis i ∈ ec_keys df qis := by
  have hlen : i < (ec_keys df qis).length := by simp [ec_keys, hi]
  unfold qiKey
  rw [List.getD_eq_getElem _ _ hlen]
  exact List.getElem_mem hlen

theorem mem_group_iff (df : Dataset) (qis : List String) (i : Nat) (k : String) :
    (i ∈ (List.range (ec_keys df qis).length).filter
        (fun j => (ec_keys df qis).getD j "" = k))
      ↔ i < df.rows.length ∧ qiKey df qis i = k := by
  rw [List.mem_filter, List.mem_range]
  unfold qiKey
  simp [ec_keys]

theorem countP_groups (df : Dataset) (qis : List String) (i : Nat)
    (hi : i < df.rows.length) :
    ((compute_equivalence_classes df qis).2).countP (fun g => decide (i ∈ g.2)) = 1 := by
  rw [ec_groups_def, List.countP_map]
  have hcg : List.countP ((fun g : String × List Nat => decide (i ∈ g.2)) ∘
        (fun k => (k, (List.range (ec_keys df qis).length).filter
            (fun j => (ec_keys df qis).getD j "" = k))))
        (distinctList (ec_keys df qis))
      = List.countP (fun k => k == qiKey df qis i) (distinctList (ec_keys df qis)) := by
    refine List.countP_congr (fun k hk => ?_)
    simp only [Function.comp_apply, decide_eq_true_eq, beq_iff_eq]
    rw [mem_group_iff]
    constructor
    · rintro ⟨_, h2⟩; exact h2.symm
    · intro h2; exact ⟨hi, h2.symm⟩
  rw [hcg]
  have hcnt : List.countP (fun k => k == qiKey df qis i) (distinctList (ec_keys df qis))
      = (distinctList (ec_keys df qis)).count (qiKey df qis i) := rfl
  rw [hcnt]
  refine List.count_eq_one_of_mem (nodup_distinctList _) ?_
  rw [mem_distinctList]
  exact qiKey_mem df qis i hi

theorem sameClass_iff_qiKey (df : Dataset) (qis : List String) (i j : Nat)
    (hi : i < df.rows.length) (hj : j < df.rows.length) :
    sameClass df qis i j ↔ qiKey df qis i = qiKey df qis j := by
  unfold sameClass
  rw [ec_groups_def]
  constructor
  · rintro ⟨g, hg, hig, hjg⟩
    obtain ⟨k, hk, rfl⟩ := List.mem_map.mp hg
    have h1 := (mem_group_iff df qis i k).mp hig
    have h2 := (mem_group_iff df qis j k).mp hjg
    rw [h1.2, h2.2]
  · intro hij
    refine ⟨(qiKey df qis i, (List.range (ec_keys df qis).length).filter
        (fun m => (ec_keys df qis).getD m "" = qiKey df qis i)), ?_, ?_, ?_⟩
    · exact List.mem_map.mpr ⟨qiKey df qis i,
        (mem_distinctList _ _).mpr (qiKey_mem df qis i hi), rfl⟩
    · exact (mem_group_iff df qis i _).mpr ⟨hi, rfl⟩
    · exact (mem_group_iff df qis j _).mpr ⟨hj, hij.symm⟩

theorem qiKey_eq_intercalate (df : Dataset) (qis : List String) (i : Nat)
    (hi : i < df.rows.length) :
    qiKey df qis i = String.intercalate "_" (qiTuple df qis i) := by
  have hlen : i < (df.rows.map (recordKey qis)).length := by simpa using hi
  unfold qiKey qiTuple ec_keys
  rw [List.getD_eq_getElem _ _ hlen, List.getElem_map, List.getD_eq_getElem _ _ hi]
  rfl

/-! ### Concrete datasets used as witnesses and counterexamples -/

/-- Two records whose distinct QI tuples `("a_b", "c")` and `("a", "b_c")`
collide under the `'_'` join: both produce the key `"a_b_c"`. -/
def dfCollide : Dataset :=
  { cols := ["x", "y"]
    rows := [fun c => if c = "x" then "a_b" else "c",
             fun c => if c = "x" then "a" else "b_c"] }

/-- One record over two columns, one cell suppressed and one kept. -/
def dfHalf : Dataset :=
  { cols := ["a", "b"]
    rows := [fun c => if c = "a" then "*" else "x"] }

/-- Three records over two columns with equivalence-class sizes 2 and 1. -/
def dfThree : Dataset :=
  { cols := ["age", "zip"]
    rows := [fun c => if c = "age" then "20" else "111",
             fun c => if c = "age" then "20" else "111",
             fun c => if c = "age" then "30" else "222"] }

/-- A dataset with zero records and two columns. -/
def dfEmpty : Dataset := { cols := ["a", "b"], rows := [] }

/-- Two records over two columns, one of which is literally named
`"average"` and is a quasi-identifier. -/
def dfAvg : Dataset :=
  { cols := ["average", "b"]
    rows := [fun c => if c = "average" then "v1" else "w",
             fun c => if c = "average" then "*" else "w"] }

/-! ### Claim theorems -/

/-- C1: for every dataset and every k, the verdict of the k-anonymity judge
satisfies `satisfies_k_anonymity = true` iff the minimum equivalence-class
size computed by the metric engine is at least `k`. -/
theorem C1_verdict_iff_min_ec_size (df : Dataset) (k : ℚ) :
    (evaluate_k_anonymity df k).satisfies_k_anonymity = true
      ↔ ((calculate_equivalence_class_metrics
            (ecSizes df (identify_quasi_identifiers df))
            df.rows.length).min_ec_size : ℚ) ≥ k := by
  simp only [evaluate_k_anonymity, ecSizes, decide_eq_true_eq, ge_iff_le]

/-- C2: for every dataset and quasi-identifier set, the equivalence classes
form a partition of the records: the class sizes sum to the record count,
and every record index lies in the membership list of exactly one class. -/
theorem C2_partition (df : Dataset) (qis : List String) :
    (ecSizes df qis).sum = df.rows.length
    ∧ ∀ i, i < df.rows.length →
        ((compute_equivalence_classes df qis).2).countP (fun g => decide (i ∈ g.2)) = 1 :=
  ⟨ecSizes_sum df qis, fun i hi => countP_groups df qis i hi⟩

/-- Witness for C2 at a concrete three-record dataset. -/
theorem C2_partition_witness :
    (ecSizes dfThree (identify_quasi_identifiers dfThree)).sum = dfThree.rows.length
    ∧ ((compute_equivalence_classes dfThree (identify_quasi_identifiers dfThree)).2).countP
        (fun g => decide ((0 : Nat) ∈ g.2)) = 1 :=
  ⟨(C2_partition dfThree (identify_quasi_identifiers dfThree)).1,
   (C2_partition dfThree (identify_quasi_identifiers dfThree)).2 0 (by decide)⟩

/-- C3 counterexample: on `dfCollide` the records 0 and 1 have structurally
distinct QI-value tuples, yet the builder puts them in the same equivalence
class, because their `'_'`-joined composite keys coincide.  This refutes the
"if and only if ... for all field values including ones that contain the key
separator" reading of the claim. -/
theorem C3_counterexample :
    sameClass dfCollide (identify_quasi_identifiers dfCollide) 0 1
    ∧ qiTuple dfCollide (identify_quasi_identifiers dfCollide) 0
        ≠ qiTuple dfCollide (identify_quasi_identifiers dfCollide) 1 := by
  decide

/-- C3 (amended): two records are grouped into the same equivalence class
iff their `'_'`-joined composite key strings are equal; structural equality
of the QI-value tuples implies membership in the same class, but not
conversely when field values contain the separator. -/
theorem C3_sameClass_iff_key (df : Dataset) (qis : List String) (i j : Nat)
    (hi : i < df.rows.length) (hj : j < df.rows.length) :
    (sameClass df qis i j ↔ qiKey df qis i = qiKey df qis j)
    ∧ (qiTuple df qis i = qiTuple df qis j → sameClass df qis i j) := by
  refine ⟨sameClass_iff_qiKey df qis i j hi hj, fun ht => ?_⟩
  refine (sameClass_iff_qiKey df qis i j hi hj).mpr ?_
  rw [qiKey_eq_intercalate df qis i hi, qiKey_eq_intercalate df qis j hj, ht]

/-- Witness for the amended C3: records 0 and 1 of `dfThree` have equal
QI tuples, so by the theorem they share an equivalence class. -/
theorem C3_sameClass_iff_key_witness :
    sameClass dfThree (identify_quasi_identifiers dfThree) 0 1 :=
  (C3_sameClass_iff_key dfThree (identify_quasi_identifiers dfThree) 0 1
    (by decide) (by decide)).2 (by decide)

/-- C4: the classifier returns exactly the columns in which some record's
value differs from the full-suppression marker `"*"`, in the dataset's
original column order (a sublist of the column list). -/
theorem C4_quasi_identifiers (df : Dataset) :
    (∀ c, c ∈ identify_quasi_identifiers df
        ↔ c ∈ df.cols ∧ ∃ r ∈ df.rows, r c ≠ "*")
    ∧ List.Sublist (identify_quasi_identifiers df) df.cols := by
  constructor
  · intro c
    unfold identify_quasi_identifiers
    rw [List.mem_filter]
    simp only [decide_eq_true_eq, List.all_eq_true, decide_eq_true_eq]
    constructor
    · rintro ⟨hc, hall⟩
      refine ⟨hc, ?_⟩
      by_contra hno
      push_neg at hno
      exact hall (fun r hr => hno r hr)
    · rintro ⟨hc, r, hr, hne⟩
      exact ⟨hc, fun hall => hne (hall r hr)⟩
  · exact List.filter_sublist _

theorem distinctList_perm_dedup {α : Type} [DecidableEq α] (l : List α) :
    (distinctList l).Perm l.dedup :=
  (List.perm_ext_iff_of_nodup (nodup_distinctList l) l.nodup_dedup).mpr
    (fun a => by rw [mem_distinctList, List.mem_dedup])

/-- C5: for every non-empty dataset, the risk metrics of the classes built
for any quasi-identifier set satisfy: the per-class risks are exactly
`1/size`, each risk lies in `(0, 1]`, `max_risk` is the maximum of the
per-class risks, and `avg_risk` is their unweighted arithmetic mean. -/
theorem C5_risk_metrics (df : Dataset) (qis : List String) (h : df.rows ≠ []) :
    (calculate_reidentification_risks (ecSizes df qis)).risks
        = (ecSizes df qis).map (fun s : Nat => 1 / (s : ℚ))
    ∧ (∀ r ∈ (calculate_reidentification_risks (ecSizes df qis)).risks,
        0 < r ∧ r ≤ 1)
    ∧ (calculate_reidentification_risks (ecSizes df qis)).max_risk
        ∈ (calculate_reidentification_risks (ecSizes df qis)).risks
    ∧ (∀ r ∈ (calculate_reidentification_risks (ecSizes df qis)).risks,
        r ≤ (calculate_reidentification_risks (ecSizes df qis)).max_risk)
    ∧ (calculate_reidentification_risks (ecSizes df qis)).avg_risk
        = ((calculate_reidentification_risks (ecSizes df qis)).risks).sum
            / (((calculate_reidentification_risks (ecSizes df qis)).risks).length : ℚ) := by
  obtain ⟨s, rest, hsr⟩ := List.exists_cons_of_ne_nil (ecSizes_ne_nil df qis h)
  have hrisks : (calculate_reidentification_risks (ecSizes df qis)).risks
      = (1 / (s : ℚ)) :: rest.map (fun t : Nat => 1 / (t : ℚ)) := by
    simp only [calculate_reidentification_risks, hsr, List.map_cons]
  have hmax : (calculate_reidentification_risks (ecSizes df qis)).max_risk
      = (rest.map (fun t : Nat => 1 / (t : ℚ))).foldl max (1 / (s : ℚ)) := by
    simp only [calculate_reidentification_risks, hsr, List.map_cons]
  refine ⟨rfl, ?_, ?_, ?_, ?_⟩
  · intro r hr
    have hr' : r ∈ (ecSizes df qis).map (fun t : Nat => 1 / (t : ℚ)) := hr
    obtain ⟨t, ht, rfl⟩ := List.mem_map.mp hr'
    have h1 : 1 ≤ t := one_le_of_mem_ecSizes df qis t ht
    have hpos : (0 : ℚ) < (t : ℚ) := by exact_mod_cast Nat.lt_of_lt_of_le Nat.zero_lt_one h1
    exact ⟨one_div_pos.mpr hpos, (div_le_one hpos).mpr (by exact_mod_cast h1)⟩
  · rw [hmax, hrisks]
    exact foldl_max_mem _ _
  · intro r hr
    rw [hrisks] at hr
    rw [hmax]
    exact le_foldl_max _ _ _ hr
  · simp only [calculate_reidentification_risks, hsr, List.map_cons, List.isEmpty_cons,
      Bool.false_eq_true, if_false]

/-- Witness for C5 at a concrete three-record dataset; the quantified
conjuncts are instantiated at the maximum risk itself. -/
theorem C5_risk_metrics_witness :
    (calculate_reidentification_risks
        (ecSizes dfThree (identify_quasi_identifiers dfThree))).risks
        = (ecSizes dfThree (identify_quasi_identifiers dfThree)).map
            (fun s : Nat => 1 / (s : ℚ))
    ∧ 0 < (calculate_reidentification_risks
        (ecSizes dfThree (identify_quasi_identifiers dfThree))).max_risk
    ∧ (calculate_reidentification_risks
        (ecSizes dfThree (identify_quasi_identifiers dfThree))).max_risk ≤ 1
    ∧ (calculate_reidentification_risks
        (ecSizes dfThree (identify_quasi_identifiers dfThree))).max_risk
        ∈ (calculate_reidentification_risks
            (ecSizes dfThree (identify_quasi_identifiers dfThree))).risks
    ∧ (calculate_reidentification_risks
        (ecSizes dfThree (identify_quasi_identifiers dfThree))).avg_risk
        = ((calculate_reidentification_risks
            (ecSizes dfThree (identify_quasi_identifiers dfThree))).risks).sum
            / (((calculate_reidentification_risks
                (ecSizes dfThree (identify_quasi_identifiers dfThree))).risks).length : ℚ) :=
  have h := C5_risk_metrics dfThree (identify_quasi_identifiers dfThree) (by simp [dfThree])
  ⟨h.1, (h.2.1 _ h.2.2.1).1, (h.2.1 _ h.2.2.1).2, h.2.2.1, h.2.2.2.2⟩

/-- The number of distinct QI-value tuples of a dataset.  Modelled from the
spec's words ("number of distinct QI-value tuples in D"), to be compared
with the number of classes the code produces. -/
def numDistinctTuples (df : Dataset) (qis : List String) : Nat :=
  ((df.rows.map (fun r => qis.map r)).dedup).length

/-- C6 counterexample: on `dfCollide`, the code reports one equivalence
class although the dataset has two distinct QI-value tuples, because the
two tuples collide under the `'_'` join.  `num_classes` therefore does not
equal the number of distinct QI-value tuples. -/
theorem C6_counterexample :
    (calculate_equivalence_class_metrics
        (ecSizes dfCollide (identify_quasi_identifiers dfCollide))
        dfCollide.rows.length).num_equivalence_classes = 1
    ∧ numDistinctTuples dfCollide (identify_quasi_identifiers dfCollide) = 2 := by
  constructor
  · decide
  · unfold numDistinctTuples dfCollide
    decide

/-- C6 (amended): for every non-empty dataset, `num_classes` equals the
number of distinct composite keys (the `'_'`-joins of the QI tuples, which
can be fewer than the distinct QI-value tuples when values contain the
separator); min/max are the minimum and maximum of the class-size multiset;
`avg_size` = total_records / num_classes; `unique_records` counts the
classes of size exactly 1; and `unique_records_percentage` =
unique_records / total_records × 100. -/
theorem C6_ec_metrics (df : Dataset) (qis : List String) (h : df.rows ≠ []) :
    (calculate_equivalence_class_metrics (ecSizes df qis)
        df.rows.length).num_equivalence_classes = ((ec_keys df qis).dedup).length
    ∧ (calculate_equivalence_class_metrics (ecSizes df qis)
        df.rows.length).min_ec_size ∈ ecSizes df qis
    ∧ (∀ s ∈ ecSizes df qis,
        (calculate_equivalence_class_metrics (ecSizes df qis)
          df.rows.length).min_ec_size ≤ s)
    ∧ (calculate_equivalence_class_metrics (ecSizes df qis)
        df.rows.length).max_ec_size ∈ ecSizes df qis
    ∧ (∀ s ∈ ecSizes df qis,
        s ≤ (calculate_equivalence_class_metrics (ecSizes df qis)
          df.rows.length).max_ec_size)
    ∧ (calculate_equivalence_class_metrics (ecSizes df qis)
        df.rows.length).avg_ec_size
        = (df.rows.length : ℚ)
            / ((calculate_equivalence_class_metrics (ecSizes df qis)
                df.rows.length).num_equivalence_classes : ℚ)
    ∧ (calculate_equivalence_class_metrics (ecSizes df qis)
        df.rows.length).unique_records
        = ((ecSizes df qis).filter (fun s => s = 1)).length
    ∧ (calculate_equivalence_class_metrics (ecSizes df qis)
        df.rows.length).unique_records_percentage
        = (((ecSizes df qis).filter (fun s => s = 1)).length : ℚ)
            / (df.rows.length : ℚ) * 100 := by
  obtain ⟨s, rest, hsr⟩ := List.exists_cons_of_ne_nil (ecSizes_ne_nil df qis h)
  have hie : (ecSizes df qis).isEmpty = false := by
    simp [List.isEmpty_iff, hsr]
  have hmin : (calculate_equivalence_class_metrics (ecSizes df qis)
      df.rows.length).min_ec_size = rest.foldl min s := by
    simp only [calculate_equivalence_class_metrics, hsr]
  have hmax : (calculate_equivalence_class_metrics (ecSizes df qis)
      df.rows.length).max_ec_size = rest.foldl max s := by
    simp only [calculate_equivalence_class_metrics, hsr]
  have hnum : (calculate_equivalence_class_metrics (ecSizes df qis)
      df.rows.length).num_equivalence_classes = (ecSizes df qis).length := rfl
  refine ⟨?_, ?_, ?_, ?_, ?_, ?_, rfl, ?_⟩
  · rw [hnum, ecSizes_eq, List.length_map,
      (distinctList_perm_dedup (ec_keys df qis)).length_eq]
  · rw [hmin, hsr]
    exact foldl_min_mem _ _
  · intro t ht
    rw [hsr] at ht
    rw [hmin]
    exact foldl_min_le _ _ _ ht
  · rw [hmax, hsr]
    exact foldl_max_mem _ _
  · intro t ht
    rw [hsr] at ht
    rw [hmax]
    exact le_foldl_max _ _ _ ht
  · have hsum := ecSizes_sum df qis
    rw [hnum]
    simp only [calculate_equivalence_class_metrics, hie, Bool.false_eq_true, if_false]
    rw [hsum]
  · have hpos : 0 < df.rows.length := List.length_pos.mpr h
    simp only [calculate_equivalence_class_metrics, hpos, if_true]

/-- Witness for the amended C6 at a concrete three-record dataset; the two
universally quantified conjuncts are instantiated at the class size 2. -/
theorem C6_ec_metrics_witness :
    (calculate_equivalence_class_metrics
        (ecSizes dfThree (identify_quasi_identifiers dfThree))
        dfThree.rows.length).num_equivalence_classes
        = ((ec_keys dfThree (identify_quasi_identifiers dfThree)).dedup).length
    ∧ (calculate_equivalence_class_metrics
        (ecSizes dfThree (identify_quasi_identifiers dfThree))
        dfThree.rows.length).min_ec_size ≤ 2
    ∧ (2 : Nat) ≤ (calculate_equivalence_class_metrics
        (ecSizes dfThree (identify_quasi_identifiers dfThree))
        dfThree.rows.length).max_ec_size
    ∧ (calculate_equivalence_class_metrics
        (ecSizes dfThree (identify_quasi_identifiers dfThree))
        dfThree.rows.length).avg_ec_size
        = (dfThree.rows.length : ℚ)
            / ((calculate_equivalence_class_metrics
                (ecSizes dfThree (identify_quasi_identifiers dfThree))
                dfThree.rows.length).num_equivalence_classes : ℚ) :=
  ⟨(C6_ec_metrics dfThree (identify_quasi_identifiers dfThree) (by simp [dfThree])).1,
   (C6_ec_metrics dfThree (identify_quasi_identifiers dfThree)
      (by simp [dfThree])).2.2.1 2 (by decide),
   (C6_ec_metrics dfThree (identify_quasi_identifiers dfThree)
      (by simp [dfThree])).2.2.2.2.1 2 (by decide),
   (C6_ec_metrics dfThree (identify_quasi_identifiers dfThree)
      (by simp [dfThree])).2.2.2.2.2.1⟩

/-- C7 counterexample: on `dfHalf` (one suppressed cell out of two) the
suppression-rate metric is `50`, not the ratio `1/2` of suppressed cells to
total cells: the code returns the ratio multiplied by 100. -/
theorem C7_counterexample :
    calculate_suppression_rate dfHalf
      ≠ (suppressedCellCount dfHalf : ℚ) / (totalCellCount dfHalf : ℚ) := by
  have h1 : suppressedCellCount dfHalf = 1 := by decide
  have h2 : totalCellCount dfHalf = 2 := by decide
  unfold calculate_suppression_rate
  rw [h1, h2]
  norm_num

/-- C7 (amended): for every dataset with at least one cell, the
suppression-rate metric equals 100 times the ratio of the table-wide count
of cells equal to the full-suppression marker (over all columns, not only
quasi-identifier columns) to the total cell count, i.e. the ratio expressed
as a percentage. -/
theorem C7_suppression_rate (df : Dataset) (h : 0 < totalCellCount df) :
    calculate_suppression_rate df
      = (suppressedCellCount df : ℚ) / (totalCellCount df : ℚ) * 100 := by
  unfold calculate_suppression_rate
  rw [if_pos h]

/-- Witness for the amended C7 at a concrete dataset. -/
theorem C7_suppression_rate_witness :
    calculate_suppression_rate dfHalf
      = (suppressedCellCount dfHalf : ℚ) / (totalCellCount dfHalf : ℚ) * 100 :=
  C7_suppression_rate dfHalf (by decide)

/-- C8 counterexample: at the non-integer (and thus invalid, per the claim)
threshold `k = 1/2`, `evaluate_k_anonymity` does not fail: it returns an
ordinary verdict (`satisfies_k_anonymity = true` on `dfHalf`).  The code
contains no validation of `k` and no `InvalidParameter` condition. -/
theorem C8_counterexample :
    (evaluate_k_anonymity dfHalf ((1 : ℚ) / 2)).satisfies_k_anonymity = true := by
  simp only [evaluate_k_anonymity, decide_eq_true_eq]
  have hmin : (calculate_equivalence_class_metrics
      (((compute_equivalence_classes dfHalf (identify_quasi_identifiers dfHalf)).1).map
        (fun p => p.2)) dfHalf.rows.length).min_ec_size = 1 := by decide
  rw [hmin]
  norm_num

/-- C8 (amended): `evaluate_k_anonymity` performs no validation of `k`: it
returns a verdict for every rational `k`, and for every non-positive `k`
the verdict is `satisfies_k_anonymity = true`, since the minimum class size
is a natural number and hence `≥ k`. -/
theorem C8_no_validation (df : Dataset) (k : ℚ) (hk : k ≤ 0) :
    (evaluate_k_anonymity df k).satisfies_k_anonymity = true := by
  simp only [evaluate_k_anonymity, decide_eq_true_eq]
  exact le_trans hk (Nat.cast_nonneg _)

/-- Witness for the amended C8 at a concrete dataset and `k = -3`. -/
theorem C8_no_validation_witness :
    (evaluate_k_anonymity dfThree (-3 : ℚ)).satisfies_k_anonymity = true :=
  C8_no_validation dfThree (-3) (by norm_num)

/-- C9: on a dataset with zero records, every metric function returns the
well-defined zero/empty results (all divisions are guarded): the risk
metrics are zero with an empty risk list, the equivalence-class statistics
are all zero with an empty histogram, the information-loss report is the
single aggregate entry `'average' ↦ 0`, and the suppression rate is 0. -/
theorem C9_zero_records (df : Dataset) (h : df.rows = []) :
    calculate_reidentification_risks (ecSizes df (identify_quasi_identifiers df))
        = { max_risk := 0, avg_risk := 0, risks := [] }
    ∧ calculate_equivalence_class_metrics
        (ecSizes df (identify_quasi_identifiers df)) df.rows.length
        = { num_equivalence_classes := 0, min_ec_size := 0, max_ec_size := 0,
            avg_ec_size := 0, unique_records := 0, unique_records_percentage := 0,
            ec_size_distribution := [] }
    ∧ calculate_information_loss df (identify_quasi_identifiers df)
        = [("average", InfoLossEntry.avgEntry 0)]
    ∧ calculate_suppression_rate df = 0 := by
  have hq : identify_quasi_identifiers df = [] := by
    simp [identify_quasi_identifiers, h]
  have hs : ecSizes df (identify_quasi_identifiers df) = [] := by
    rw [ecSizes_eq]
    simp [ec_keys, h, distinctList, distinctAux]
  refine ⟨?_, ?_, ?_, ?_⟩
  · rw [hs]; rfl
  · rw [hs, h]; rfl
  · rw [hq]; rfl
  · simp [calculate_suppression_rate, totalCellCount, h]

/-- Witness for C9 at a concrete zero-record dataset with two columns. -/
theorem C9_zero_records_witness :
    calculate_reidentification_risks
        (ecSizes dfEmpty (identify_quasi_identifiers dfEmpty))
        = { max_risk := 0, avg_risk := 0, risks := [] }
    ∧ calculate_equivalence_class_metrics
        (ecSizes dfEmpty (identify_quasi_identifiers dfEmpty)) dfEmpty.rows.length
        = { num_equivalence_classes := 0, min_ec_size := 0, max_ec_size := 0,
            avg_ec_size := 0, unique_records := 0, unique_records_percentage := 0,
            ec_size_distribution := [] }
    ∧ calculate_information_loss dfEmpty (identify_quasi_identifiers dfEmpty)
        = [("average", InfoLossEntry.avgEntry 0)]
    ∧ calculate_suppression_rate dfEmpty = 0 :=
  C9_zero_records dfEmpty rfl

/-! ### Dict-assignment lemmas for the information-loss report (C10) -/

theorem dictSet_eq_of_key (m : List (String × InfoLossEntry)) (k : String)
    (v : InfoLossEntry) (p : String × InfoLossEntry) (hp : p ∈ dictSet m k v)
    (hk : p.1 = k) : p = (k, v) := by
  unfold dictSet at hp
  by_cases hany : m.any (fun q => decide (q.1 = k)) = true
  · rw [if_pos hany] at hp
    obtain ⟨q, hq, hpq⟩ := List.mem_map.mp hp
    by_cases hqk : q.1 = k
    · rw [if_pos hqk] at hpq
      exact hpq.symm
    · rw [if_neg hqk] at hpq
      exact absurd (hpq ▸ hk) hqk
  · rw [if_neg hany] at hp
    rcases List.mem_append.mp hp with hm | hone
    · exfalso
      have hno : ¬ ∃ q ∈ m, decide (q.1 = k) = true := fun hex =>
        hany (List.any_eq_true.mpr hex)
      exact hno ⟨p, hm, decide_eq_true hk⟩
    · exact List.mem_singleton.mp hone

theorem dictSet_mem_self (m : List (String × InfoLossEntry)) (k : String)
    (v : InfoLossEntry) : (k, v) ∈ dictSet m k v := by
  unfold dictSet
  by_cases hany : m.any (fun q => decide (q.1 = k)) = true
  · rw [if_pos hany]
    obtain ⟨q, hq, hqk⟩ := List.any_eq_true.mp hany
    refine List.mem_map.mpr ⟨q, hq, ?_⟩
    rw [if_pos (of_decide_eq_true hqk)]
  · rw [if_neg hany]
    exact List.mem_append.mpr (Or.inr (List.mem_singleton.mpr rfl))

theorem mem_dictSet_of_ne (m : List (String × InfoLossEntry)) (k : String)
    (v : InfoLossEntry) (p : String × InfoLossEntry) (hp : p ∈ m) (hne : p.1 ≠ k) :
    p ∈ dictSet m k v := by
  unfold dictSet
  by_cases hany : m.any (fun q => decide (q.1 = k)) = true
  · rw [if_pos hany]
    refine List.mem_map.mpr ⟨p, hp, ?_⟩
    rw [if_neg hne]
  · rw [if_neg hany]
    exact List.mem_append.mpr (Or.inl hp)

theorem infoLossFold_preserves (df : Dataset) :
    ∀ (qis : List String) (m : List (String × InfoLossEntry)) (col : String),
      (col, InfoLossEntry.perCol (colLoss df col)) ∈ m →
      (col, InfoLossEntry.perCol (colLoss df col))
        ∈ qis.foldl (fun m c => dictSet m c (InfoLossEntry.perCol (colLoss df c))) m
  | [], _, _, hm => hm
  | c :: rest, m, col, hm => by
    simp only [List.foldl_cons]
    refine infoLossFold_preserves df rest _ col ?_
    by_cases hcc : col = c
    · subst hcc
      exact dictSet_mem_self _ _ _
    · exact mem_dictSet_of_ne _ _ _ _ hm hcc

theorem mem_infoLossBase (df : Dataset) :
    ∀ (qis : List String) (m : List (String × InfoLossEntry)) (col : String),
      col ∈ qis →
      (col, InfoLossEntry.perCol (colLoss df col))
        ∈ qis.foldl (fun m c => dictSet m c (InfoLossEntry.perCol (colLoss df c))) m
  | [], _, col, hcol => absurd hcol (List.not_mem_nil col)
  | c :: rest, m, col, hcol => by
    simp only [List.foldl_cons]
    rcases List.mem_cons.mp hcol with rfl | h2
    · exact infoLossFold_preserves df rest _ col (dictSet_mem_self _ _ _)
    · exact mem_infoLossBase df rest _ col h2

/-- C10: the aggregate average loss is stored under the key `"average"` in
the same dict as the per-column results; for a dataset with a QI column
literally named `"average"`, the per-column entry for that column is
present after the per-column loop but is then overwritten by the aggregate
mean and absent from the returned report. -/
theorem C10_average_overwritten (df : Dataset) (qis : List String)
    (havg : "average" ∈ qis) :
    ("average", InfoLossEntry.perCol (colLoss df "average")) ∈ infoLossBase df qis
    ∧ ("average", InfoLossEntry.avgEntry (avgLoss df qis))
        ∈ calculate_information_loss df qis
    ∧ ∀ c : ColLoss,
        ("average", InfoLossEntry.perCol c) ∉ calculate_information_loss df qis := by
  refine ⟨mem_infoLossBase df qis [] "average" havg, dictSet_mem_self _ _ _, ?_⟩
  intro c hc
  have heq := dictSet_eq_of_key (infoLossBase df qis) "average"
    (InfoLossEntry.avgEntry (avgLoss df qis)) _ hc rfl
  have h2 : InfoLossEntry.perCol c = InfoLossEntry.avgEntry (avgLoss df qis) :=
    congrArg Prod.snd heq
  exact InfoLossEntry.noConfusion h2

/-- Witness for C10 at a concrete dataset with a QI column named
`"average"`; the quantified conjunct is instantiated at that column's own
per-column record. -/
theorem C10_average_overwritten_witness :
    ("average", InfoLossEntry.perCol (colLoss dfAvg "average"))
        ∈ infoLossBase dfAvg (identify_quasi_identifiers dfAvg)
    ∧ ("average", InfoLossEntry.avgEntry
          (avgLoss dfAvg (identify_quasi_identifiers dfAvg)))
        ∈ calculate_information_loss dfAvg (identify_quasi_identifiers dfAvg)
    ∧ ("average", InfoLossEntry.perCol (colLoss dfAvg "average"))
        ∉ calculate_information_loss dfAvg (identify_quasi_identifiers dfAvg) :=
  have h := C10_average_overwritten dfAvg (identify_quasi_identifiers dfAvg) (by decide)
  ⟨h.1, h.2.1, h.2.2 (colLoss dfAvg "average")⟩

end KAnon
